import Mathlib

/-
Shallow embedding of the Caxx-radar core pipeline:
  src/io/read_azi.py       (polar extractor)
  src/georef/polar.py      (polar to lon/lat georeferencing)
  src/georef/gridding.py   (nearest-neighbor rasterization onto a regular grid)

Modelling conventions:
  - Python/numpy float64 values are modelled by the inductive type Fv:
    a finite rational, NaN, or a signed infinity.  Claims settled here are
    about control flow, shapes and value selection, not rounding, so exact
    rational arithmetic is the faithful spec-level semantics.
  - numpy primitives used by the source are modelled by their documented
    semantics: np.nanmin and np.nanmax ignore NaN (they reduce with fmin and
    fmax), return NaN when every element is NaN, and raise ValueError on a
    zero-size array; np.arange raises when a bound is NaN (arange cannot
    compute length) or infinite (maximum allowed size exceeded) and
    otherwise produces max 0 (ceil ((stop - start) / step)) elements.
  - pyproj is modelled by an abstract ProjModel: CRS.from_epsg either
    succeeds or raises a CRS error naming the EPSG code, and
    Transformer.transform is a per-point function which, per the pyproj
    documentation of the default errcheck=False mode, returns non-finite
    (inf) coordinates for points it cannot transform instead of raising.
  - scipy cKDTree query with k=1 is modelled as the index of a sample at
    minimal squared euclidean distance (first such index on ties, one
    deterministic tie-break consistent with the library contract).
  - wradlib geometry (spherical_to_xyz, xyz_to_lonlatalt) is external; it is
    modelled by an abstract GeoModel of per-sample functions (the angle-unit
    conversion is folded into the abstract function).  The claims touching
    it only concern shapes and parameter passing.
  - xarray DataArray construction validates that coordinate lengths match
    the data dimensions and raises ValueError otherwise; read_azi_tree
    models that check explicitly.
-/

unseal Rat.add Rat.sub Rat.mul Rat.inv

/-- Model of a Python/numpy double: a finite rational, NaN or a signed
infinity.  Collapsing float64 to exact rationals keeps every operation the
source performs (comparisons, min/max, affine arithmetic) exact. -/
inductive Fv where
  | fin (q : ℚ)
  | nan
  | inf
  | ninf
deriving DecidableEq

/-- np.isfinite on the float model. -/
def Fv.isFinite : Fv → Bool
  | .fin _ => true
  | _ => false

/-- Addition of a finite rational to a float value (used for x1 + dx etc.). -/
def Fv.addQ : Fv → ℚ → Fv
  | .fin a, c => .fin (a + c)
  | .nan, _ => .nan
  | .inf, _ => .inf
  | .ninf, _ => .ninf

/-- Subtraction of a finite rational from a float value (x0 = nanmin X - buffer_m). -/
def Fv.subQ : Fv → ℚ → Fv
  | .fin a, c => .fin (a - c)
  | .nan, _ => .nan
  | .inf, _ => .inf
  | .ninf, _ => .ninf

/-- np.fmin pairwise reduction step: NaN is ignored in favour of the other
argument, otherwise the usual order with -inf minimal and inf maximal. -/
def Fv.fmin : Fv → Fv → Fv
  | .nan, b => b
  | a, .nan => a
  | .ninf, _ => .ninf
  | _, .ninf => .ninf
  | .inf, b => b
  | a, .inf => a
  | .fin a, .fin b => .fin (min a b)

/-- np.fmax pairwise reduction step, dual to Fv.fmin. -/
def Fv.fmax : Fv → Fv → Fv
  | .nan, b => b
  | a, .nan => a
  | .inf, _ => .inf
  | _, .inf => .inf
  | .ninf, b => b
  | a, .ninf => a
  | .fin a, .fin b => .fin (max a b)

/-- Errors the gridding step can produce.  crsError models the pyproj
CRSError raised by CRS.from_epsg on an unknown code (it names the offending
EPSG identifier); numericError groups the numpy numeric exceptions
(ValueError from nanmin of a zero-size array, ValueError from arange with a
non-finite bound, ZeroDivisionError from a zero step). -/
inductive GridErr where
  | crsError (epsg : Int)
  | numericError (msg : String)
deriving DecidableEq

/-- np.nanmin over a flat array: ValueError on a zero-size array, otherwise
an fmin reduction (which ignores NaN and returns NaN only when every
element is NaN). -/
def np_nanmin : List Fv → Except GridErr Fv
  | [] => .error (.numericError "zero-size array to reduction operation fmin which has no identity")
  | a :: rest => .ok (rest.foldl Fv.fmin a)

/-- np.nanmax over a flat array, dual to np_nanmin. -/
def np_nanmax : List Fv → Except GridErr Fv
  | [] => .error (.numericError "zero-size array to reduction operation fmax which has no identity")
  | a :: rest => .ok (rest.foldl Fv.fmax a)

/-- Number of elements of np.arange(start, stop, step) for finite bounds and
a nonzero step: max 0 (ceil ((stop - start) / step)), written through
Rat.floor so that concrete runs reduce (the ceil reading is the lemma
arangeLen_eq_ceil below). -/
def arangeLen (start stop step : ℚ) : Nat :=
  (-Rat.floor (-((stop - start) / step))).toNat

/-- The elements of np.arange for finite bounds: start, start + step, ... -/
def arangeList (start step : ℚ) (n : Nat) : List ℚ :=
  (List.range n).map fun i : Nat => start + step * (i : ℚ)

/-- np.arange(start, stop, step): raises ValueError when a bound is NaN or
infinite (numpy cannot compute the length), ZeroDivisionError on a zero
step, and otherwise yields the half-open arithmetic progression with ceil
length semantics. -/
def np_arange (start stop : Fv) (step : ℚ) : Except GridErr (List ℚ) :=
  match start, stop with
  | .fin a, .fin b =>
    if step = 0 then .error (.numericError "division by zero")
    else .ok (arangeList a step (arangeLen a b step))
  | .nan, _ => .error (.numericError "arange: cannot compute length")
  | _, .nan => .error (.numericError "arange: cannot compute length")
  | _, _ => .error (.numericError "Maximum allowed size exceeded")

/-- One polar sample of the georeferenced dataset handed to the gridding
step: the data value and its lon/lat coordinates.  The source works with
three equally shaped 2-D arrays and immediately ravels them; a list of
triples is the same data. -/
structure Sample where
  v : Fv
  lon : Fv
  lat : Fv
deriving DecidableEq

/-- Abstract model of pyproj for a fixed target CRS family: validEpsg tells
whether CRS.from_epsg succeeds on a code, and tx is the per-point
Transformer.transform from EPSG 4326.  In the default errcheck=False mode
the transformer does not raise on bad points; it returns non-finite
coordinates (documented as inf) for them. -/
structure ProjModel where
  validEpsg : Int → Bool
  tx : Fv → Fv → Fv × Fv

/-- X, Y = t.transform(lon, lat), elementwise over the samples. -/
def projXY (p : ProjModel) (samples : List Sample) : List (Fv × Fv) :=
  samples.map fun s => p.tx s.lon s.lat

/-- The mask test of the source: a sample qualifies for the spatial index
exactly when its value and both projected coordinates are finite; a
qualifying sample contributes the triple (x, y, value). -/
def finTriple (s : Sample) (xy : Fv × Fv) : Option (ℚ × ℚ × ℚ) :=
  match s.v, xy.1, xy.2 with
  | .fin v, .fin x, .fin y => some (x, y, v)
  | _, _, _ => none

/-- pts/vals of the source: the samples surviving the finiteness mask,
paired with their projected coordinates. -/
def candidates (p : ProjModel) (samples : List Sample) : List (ℚ × ℚ × ℚ) :=
  (samples.zip (projXY p samples)).filterMap fun sxy => finTriple sxy.1 sxy.2

/-- Squared euclidean distance, the metric of cKDTree. -/
def d2 (a b : ℚ × ℚ) : ℚ := (a.1 - b.1) ^ 2 + (a.2 - b.2) ^ 2

/-- Linear scan behind the cKDTree k=1 query: carries the position of the
next point, the best index so far and its distance. -/
def nearestAux (q : ℚ × ℚ) : List (ℚ × ℚ) → Nat → Nat → ℚ → Nat
  | [], _, best, _ => best
  | p :: rest, k, best, bd =>
    if d2 q p < bd then nearestAux q rest (k + 1) k (d2 q p)
    else nearestAux q rest (k + 1) best bd

/-- Model of tree.query(q, k=1): the index of a point of pts at minimal
squared distance from q (the first such index on ties). -/
def nearestIdx (pts : List (ℚ × ℚ)) (q : ℚ × ℚ) : Nat :=
  match pts with
  | [] => 0
  | p :: rest => nearestAux q rest 1 0 (d2 q p)

/-- The gridded output dataset: axes, the value matrix (rows indexed by ys,
columns by xs) and the metadata the source attaches. -/
structure GridOut where
  xs : List ℚ
  ys : List ℚ
  out : List (List Fv)
  dtype : String
  crsEpsg : Int
  method : String
  nodata : ℚ
deriving DecidableEq

/-- Cell accessor for the output matrix. -/
def GridOut.cell (g : GridOut) (j i : Nat) : Fv :=
  (g.out.getD j []).getD i Fv.nan

/-- The empty-candidate branch: np.full((ys.size, xs.size), nodata,
dtype=np.float32). -/
def emptyGrid (xs ys : List ℚ) (nd : ℚ) (epsg : Int) : GridOut :=
  ⟨xs, ys, ys.map (fun _ => xs.map fun _ => Fv.fin nd), "float32", epsg, "nearest (K=1)", nd⟩

/-- One cell of the k=1 nearest-neighbor fill, including the defensive
second pass that replaces a non-finite assigned value by nodata. -/
def knnCell (cands : List (ℚ × ℚ × ℚ)) (nd : ℚ) (x y : ℚ) : Fv :=
  let pts := cands.map fun c => (c.1, c.2.1)
  let vals := cands.map fun c => c.2.2
  let val := Fv.fin (vals.getD (nearestIdx pts (x, y)) 0)
  if val.isFinite then val else Fv.fin nd

/-- The nonempty-candidate branch: meshgrid(xs, ys) queried cell by cell,
reshaped to (ys.size, xs.size), cast to float32. -/
def knnGrid (xs ys : List ℚ) (cands : List (ℚ × ℚ × ℚ)) (nd : ℚ) (epsg : Int) : GridOut :=
  ⟨xs, ys, ys.map (fun y => xs.map fun x => knnCell cands nd x y), "float32", epsg, "nearest (K=1)", nd⟩

/-- Bounding box and axis construction of the source (lines 34 to 41 of
gridding.py): x0 = nanmin X - buffer_m, x1 = nanmax X + buffer_m, xs =
arange(x0, x1 + dx, dx), and likewise for y. -/
def gridAxes (X Y : List Fv) (dx dy buffer_m : ℚ) : Except GridErr (List ℚ × List ℚ) :=
  match np_nanmin X, np_nanmax X, np_nanmin Y, np_nanmax Y with
  | .ok xminF, .ok xmaxF, .ok yminF, .ok ymaxF =>
    match np_arange (xminF.subQ buffer_m) ((xmaxF.addQ buffer_m).addQ dx) dx,
          np_arange (yminF.subQ buffer_m) ((ymaxF.addQ buffer_m).addQ dy) dy with
    | .ok xs, .ok ys => .ok (xs, ys)
    | .error e, _ => .error e
    | _, .error e => .error e
  | .error e, _, _, _ => .error e
  | _, .error e, _, _ => .error e
  | _, _, .error e, _ => .error e
  | _, _, _, .error e => .error e

/-- Embedding of polar_to_grid_2d (gridding.py).  The input dataset is its
sample list (value, lon, lat per sample); the dataset is assumed to carry
exactly one data variable as the source itself assumes. -/
def polar_to_grid_2d (p : ProjModel) (samples : List Sample) (epsg : Int)
    (dx dy buffer_m : ℚ) (nodata : ℚ) : Except GridErr GridOut :=
  if p.validEpsg epsg = false then .error (.crsError epsg) else
  let XY := projXY p samples
  match gridAxes (XY.map Prod.fst) (XY.map Prod.snd) dx dy buffer_m with
  | .error e => .error e
  | .ok (xs, ys) =>
    let cands := candidates p samples
    if cands.isEmpty then .ok (emptyGrid xs ys nodata epsg)
    else .ok (knnGrid xs ys cands nodata epsg)

/-- Finite entries of a float list, in order (the spec-side notion of the
set of finite coordinates). -/
def finiteVals (l : List Fv) : List ℚ :=
  l.filterMap fun x => match x with | .fin q => some q | _ => none

/-- Minimum of a rational list (0 on the empty list, which is never used). -/
def qListMin : List ℚ → ℚ
  | [] => 0
  | a :: r => r.foldl min a

/-- Maximum of a rational list (0 on the empty list, which is never used). -/
def qListMax : List ℚ → ℚ
  | [] => 0
  | a :: r => r.foldl max a

/-- A raw metadata attribute value as a float() parse target: either it
parses to a (finite) float or it does not. -/
inductive PyVal where
  | parseable (q : ℚ)
  | unparseable
deriving DecidableEq

/-- Embedding of _safe_float composed with the dict .get default: a missing
field defaults to np.nan (float of which is NaN), an unparseable value hits
the except branch and becomes NaN, a parseable value becomes that float. -/
def _safe_float : Option PyVal → Fv
  | none => Fv.nan
  | some (.parseable q) => Fv.fin q
  | some .unparseable => Fv.nan

/-- The decoded 2-D numeric data block of a slice (np.asarray(slc["data"])).
numpy arrays are rectangular, so the shape is carried explicitly; shape[0]
is nrows, shape[-1] is ncols. -/
structure NpArray2 where
  nrows : Nat
  ncols : Nat
  flat : List Fv
deriving DecidableEq

/-- One entry of the per-ray list slc["rays"]["ray"], which may declare a
bin count (the at-bins attribute, already decoded to an integer). -/
structure Ray where
  bins : Option Nat
deriving DecidableEq

/-- The param block of a slice with its optional at-units and at-name
attributes. -/
structure Param where
  units : Option String
  name : Option String
deriving DecidableEq

/-- A decoded Rainbow slice.  Optional fields model dict keys that may be
absent; numeric attributes are carried already decoded.  raysRay is present
exactly when both the rays key and its inner ray key are, anglesA exactly
when both the angles key and its inner a key are, mirroring the two-level
membership tests of the source. -/
structure Slice where
  data : Option NpArray2
  elevation : Option ℚ
  rstart : Option ℚ
  rscale : Option ℚ
  raysRay : Option (List Ray)
  anglesA : Option (List ℚ)
  param : Option Param
deriving DecidableEq

/-- The sensorinfo block of the volume with the radar position attributes. -/
structure SensorInfo where
  lon : Option PyVal
  lat : Option PyVal
  alt : Option PyVal
deriving DecidableEq

/-- The scan level of the decoded tree. -/
structure Scan where
  slice : Option Slice
deriving DecidableEq

/-- The volume level of the decoded tree. -/
structure Volume where
  scan : Option Scan
  sensorinfo : Option SensorInfo
deriving DecidableEq

/-- The decoded tree returned by wradlib read_rainbow. -/
structure AziTree where
  volume : Option Volume
deriving DecidableEq

/-- Errors of the extractor: missingKey k models the ValueError naming the
missing structural key k raised by _extract_slice; missingData the
ValueError for a slice without a decoded data block; indexError the Python
IndexError from indexing ray[0] on an empty ray list; shapeError the
xarray ValueError for coordinate lengths conflicting with the data shape. -/
inductive ExtractErr where
  | missingKey (k : String)
  | missingData
  | indexError
  | shapeError
deriving DecidableEq

/-- Embedding of _extract_slice (read_azi.py lines 25 to 43): navigate
volume, scan, slice, raising the ValueError naming the first missing key. -/
def _extract_slice (t : AziTree) : Except ExtractErr Slice :=
  match t.volume with
  | none => .error (.missingKey "volume")
  | some vol =>
    match vol.scan with
    | none => .error (.missingKey "scan")
    | some scan =>
      match scan.slice with
      | none => .error (.missingKey "slice")
      | some slc => .ok slc

/-- np.linspace(0.0, 360.0, n, endpoint=False): n uniformly spaced angles
starting at 0 with step 360 / n. -/
def linspace360 (n : Nat) : List ℚ :=
  (List.range n).map fun i : Nat => 360 * (i : ℚ) / (n : ℚ)

/-- ranges_m = r0 + dr * np.arange(n). -/
def rangeAxis (r0 dr : ℚ) (n : Nat) : List ℚ :=
  (List.range n).map fun i : Nat => r0 + dr * (i : ℚ)

/-- The azimuth axis of _get_data_and_axes: the explicit per-ray angle list
when the source declares one, else the uniform [0, 360) fallback with as
many steps as the data array has rows. -/
def azAxis (slc : Slice) (data : NpArray2) : List ℚ :=
  match slc.anglesA with
  | some l => l
  | none => linspace360 data.nrows

/-- Result record of _get_data_and_axes: the data block, both axes and the
meta dict. -/
structure AxesOut where
  data : NpArray2
  az_deg : List ℚ
  ranges_m : List ℚ
  elevation_deg : ℚ
  r0_m : ℚ
  dr_m : ℚ
deriving DecidableEq

/-- Embedding of _get_data_and_axes (read_azi.py lines 46 to 85): require
the decoded data block, apply the metadata defaults (elevation 0, rstart 0,
rscale 1000), take the bin count from the first ray when a ray list is
declared (an empty ray list makes ray[0] raise IndexError) and else from
the trailing data dimension, and build both axes. -/
def _get_data_and_axes (slc : Slice) : Except ExtractErr AxesOut :=
  match slc.data with
  | none => .error .missingData
  | some data =>
    let elev := slc.elevation.getD 0
    let r0 := slc.rstart.getD 0
    let dr := slc.rscale.getD 1000
    match slc.raysRay with
    | some [] => .error .indexError
    | some (ray0 :: _) =>
      .ok ⟨data, azAxis slc data, rangeAxis r0 dr (ray0.bins.getD data.ncols), elev, r0, dr⟩
    | none =>
      .ok ⟨data, azAxis slc data, rangeAxis r0 dr data.ncols, elev, r0, dr⟩

/-- The polar Dataset produced by read_azi: the data variable with its
azimuth and range coordinates plus the attrs the source attaches.
elevation_deg is optional at the type level because downstream code reads
it with a default; read_azi itself always stores it. -/
structure PolarDS where
  values : NpArray2
  azimuth : List ℚ
  range : List ℚ
  varname : String
  var_units : String
  elevation_deg : Option ℚ
  r0_m : ℚ
  dr_m : ℚ
  radar_lon : Fv
  radar_lat : Fv
  radar_alt : Fv
deriving DecidableEq

/-- Embedding of read_azi (read_azi.py lines 88 to 137) downstream of the
wradlib read_rainbow call, so its input is the decoded tree (file reading
and extension-based format detection are I/O outside the embedding).  The
xr.DataArray construction validates that the coordinate lengths match the
data shape and raises ValueError on a conflict; that check is the
shapeError branch. -/
def read_azi_tree (t : AziTree) : Except ExtractErr PolarDS :=
  match _extract_slice t with
  | .error e => .error e
  | .ok slc =>
    match _get_data_and_axes slc with
    | .error e => .error e
    | .ok ax =>
      if ax.az_deg.length = ax.data.nrows ∧ ax.ranges_m.length = ax.data.ncols then
        let units := (slc.param.bind Param.units).getD "dBZ"
        let pname := (slc.param.bind Param.name).getD "dBZ"
        let si := t.volume.bind Volume.sensorinfo
        .ok ⟨ax.data, ax.az_deg, ax.ranges_m, pname, units, some ax.elevation_deg,
             ax.r0_m, ax.dr_m,
             _safe_float (si.bind SensorInfo.lon),
             _safe_float (si.bind SensorInfo.lat),
             _safe_float (si.bind SensorInfo.alt)⟩
      else .error .shapeError

/-- The composed slice lookup volume -> scan -> slice, for stating when the
path is intact. -/
def treeSlice (t : AziTree) : Option Slice :=
  (t.volume.bind Volume.scan).bind Scan.slice

/-- Replace the sensorinfo block of a tree (no-op when there is no volume),
used to state that extraction success is independent of the radar position
fields. -/
def setSensorinfo (t : AziTree) (si : Option SensorInfo) : AziTree :=
  match t.volume with
  | none => t
  | some v => ⟨some ⟨v.scan, si⟩⟩

/-- Abstract model of the external wradlib geometry: sph takes one
(range_m, azimuth_deg, elevation_deg) triple to radar-relative xyz (the
degree-to-radian conversion of the source is folded into it), toLL takes
one xyz offset and the radar position to absolute (lon, lat, alt). -/
structure GeoModel where
  sph : ℚ → ℚ → ℚ → ℚ × ℚ × ℚ
  toLL : ℚ × ℚ × ℚ → ℚ × ℚ × ℚ → ℚ × ℚ × ℚ

/-- Embedding of polar_to_xyz (polar.py lines 6 to 15): meshgrid pairs
every range with every azimuth, rows indexed by azimuth, columns by range,
then the spherical geometry is applied elementwise. -/
def polar_to_xyz (gm : GeoModel) (ranges_m azimuth_deg : List ℚ) (elev_deg : ℚ) :
    List (List (ℚ × ℚ × ℚ)) :=
  azimuth_deg.map fun a => ranges_m.map fun r => gm.sph r a elev_deg

/-- Embedding of xyz_to_lonlat (polar.py lines 18 to 24): elementwise
conversion of the xyz mesh to absolute lon/lat/alt. -/
def xyz_to_lonlat (gm : GeoModel) (xyz : List (List (ℚ × ℚ × ℚ)))
    (radar_lon radar_lat radar_alt_m : ℚ) : List (List (ℚ × ℚ × ℚ)) :=
  xyz.map fun row => row.map fun v => gm.toLL v (radar_lon, radar_lat, radar_alt_m)

/-- The polar Dataset with the lon/lat/alt auxiliary coordinates attached. -/
structure PolarDSLL where
  base : PolarDS
  lon : List (List ℚ)
  lat : List (List ℚ)
  alt : List (List ℚ)
deriving DecidableEq

/-- Embedding of polar_dataset_to_lonlat (polar.py lines 27 to 46): read
the elevation attr with default 0.0, build the xyz mesh over the range and
azimuth coordinates, convert to lon/lat/alt and attach the three 2-D
coordinate arrays. -/
def polar_dataset_to_lonlat (gm : GeoModel) (ds : PolarDS)
    (radar_lon radar_lat radar_alt_m : ℚ) : PolarDSLL :=
  let elev := ds.elevation_deg.getD 0
  let xyz := polar_to_xyz gm ds.range ds.azimuth elev
  let ll := xyz_to_lonlat gm xyz radar_lon radar_lat radar_alt_m
  ⟨ds, ll.map (List.map fun v => v.1),
       ll.map (List.map fun v => v.2.1),
       ll.map (List.map fun v => v.2.2)⟩

/-- Replace the elevation attr of a polar Dataset. -/
def setElev (ds : PolarDS) (e : Option ℚ) : PolarDS :=
  { ds with elevation_deg := e }

/-- Concrete transformer fixture: a projection defined on every finite
input (an idealized plate-carree-like map whose exact values are
irrelevant to the claims), which, as pyproj does in its default
errcheck=False mode, returns non-finite (inf) output for non-finite input
points instead of raising. -/
def pyProjLike : ProjModel :=
  ⟨fun _ => true, fun a b =>
    match a, b with
    | .fin x, .fin y => (.fin x, .fin y)
    | _, _ => (.inf, .inf)⟩

/-- Concrete transformer fixture: a projection whose valid domain is
longitudes in [-180, 180]; points outside the domain (and non-finite
points) transform to inf, as pyproj documents for errcheck=False. -/
def boundedProj : ProjModel :=
  ⟨fun _ => true, fun a b =>
    match a, b with
    | .fin x, .fin y =>
      if -180 ≤ x ∧ x ≤ 180 then (.fin x, .fin y) else (.inf, .inf)
    | _, _ => (.inf, .inf)⟩

/-- Decidable equality of Except results, so that concrete runs of the
embedded functions can be checked by decide. -/
instance {ε α : Type} [DecidableEq ε] [DecidableEq α] : DecidableEq (Except ε α)
  | .error e, .error f => decidable_of_iff (e = f) (by simp)
  | .error _, .ok _ => isFalse (by simp)
  | .ok _, .error _ => isFalse (by simp)
  | .ok a, .ok b => decidable_of_iff (a = b) (by simp)



/-- Concrete transformer fixture: a projection whose formulas simply
propagate NaN arithmetic, so NaN input points come out as NaN (no domain
check fires, hence no inf is produced). -/
def nanProj : ProjModel :=
  ⟨fun _ => true, fun a b =>
    match a, b with
    | .fin x, .fin y => (.fin x, .fin y)
    | _, _ => (.nan, .nan)⟩

/-- Input fixture: one sample whose value is finite but whose coordinates
are NaN, so no sample is fully finite. -/
def c1samples : List Sample := [⟨.fin 1, .nan, .nan⟩]

/-- Input fixture: one sample with finite, in-domain coordinates but a NaN
value, so the candidate set is empty while the bounding box is finite. -/
def c1okSamples : List Sample := [⟨.nan, .fin 0, .fin 0⟩]

/-- Input fixture: one good sample and one sample whose longitude 200 lies
outside the valid domain of boundedProj. -/
def c2samples : List Sample := [⟨.fin 10, .fin 0, .fin 0⟩, ⟨.fin 10, .fin 200, .fin 0⟩]

/-- Input fixture: one good sample and one out-of-domain sample (longitude
300), giving a projected coordinate list with one finite and one infinite
entry. -/
def c5samples : List Sample := [⟨.fin 10, .fin 0, .fin 0⟩, ⟨.fin 10, .fin 300, .fin 50⟩]

/-- Input fixture: two fully finite samples and one NaN-coordinate sample,
projected by nanProj, so the coordinate lists contain NaN but no infinity. -/
def c5okSamples : List Sample :=
  [⟨.fin 7, .fin 0, .fin 0⟩, ⟨.fin 8, .fin 10, .fin 20⟩, ⟨.fin 9, .nan, .fin 5⟩]

/-- Input fixture: a single fully finite sample. -/
def c6samples : List Sample := [⟨.fin 5, .fin 0, .fin 0⟩]

/-- Well-formed slice fixture: a 2 x 3 data block, elevation 5, default
range metadata, a ray list whose first ray declares 3 bins, no explicit
angle list. -/
def wfSlice : Slice :=
  ⟨some ⟨2, 3, [.fin 1, .fin 2, .fin 3, .fin 4, .fin 5, .fin 6]⟩,
   some 5, none, none, some [⟨some 3⟩], none, none⟩

/-- Well-formed tree fixture around wfSlice, with an unparseable longitude,
a missing latitude and a parseable altitude in sensorinfo. -/
def wfTree : AziTree :=
  ⟨some ⟨some ⟨some wfSlice⟩, some ⟨some .unparseable, none, some (.parseable 7)⟩⟩⟩

/-- The polar Dataset read_azi_tree produces from wfTree. -/
def wfDS : PolarDS :=
  ⟨⟨2, 3, [.fin 1, .fin 2, .fin 3, .fin 4, .fin 5, .fin 6]⟩, [0, 180], [0, 1000, 2000],
   "dBZ", "dBZ", some 5, 0, 1000, .nan, .nan, .fin 7⟩

/-- Geometry fixture with injective-looking component functions, used only
to instantiate the abstract wradlib model at a concrete value. -/
def geoFix : GeoModel :=
  ⟨fun r a e => (r + a + e, r - a, e), fun v w => (v.1 + w.1, v.2.1 + w.2.1, v.2.2 + w.2.2)⟩

/-- Polar Dataset fixture without the elevation_deg attribute. -/
def dsNoElev : PolarDS :=
  ⟨⟨1, 2, [.fin 1, .fin 2]⟩, [0], [0, 1000], "dBZ", "dBZ", none, 0, 1000, .nan, .nan, .nan⟩

/-- The axes record _get_data_and_axes produces from wfSlice. -/
def wfAxes : AxesOut :=
  ⟨⟨2, 3, [.fin 1, .fin 2, .fin 3, .fin 4, .fin 5, .fin 6]⟩, [0, 180], [0, 1000, 2000], 5, 0, 1000⟩

/-- The grid polar_to_grid_2d produces from the single sample of c6samples
with dx = dy = 1, buffer 1, nodata -9999 and EPSG 4326. -/
def g6 : GridOut := knnGrid [-1, 0, 1] [-1, 0, 1] [(0, 0, 5)] (-9999) 4326

/-- The all-nodata grid polar_to_grid_2d produces from c1okSamples with
dx = dy = 500, buffer 1000, nodata -9999 and EPSG 32717. -/
def g1ok : GridOut := emptyGrid (arangeList (-1000) 500 5) (arangeList (-1000) 500 5) (-9999) 32717

/-- The grid polar_to_grid_2d produces from c5okSamples under nanProj with
dx = dy = 1, buffer 1, nodata -9999 and EPSG 4326. -/
def g5ok : GridOut :=
  knnGrid (arangeList (-1) 1 13) (arangeList (-1) 1 23) [(0, 0, 7), (10, 20, 8)] (-9999) 4326

/-- Transformer fixture whose EPSG lookup always fails, modelling
CRS.from_epsg on an unknown code. -/
def noEpsgProj : ProjModel := ⟨fun _ => false, fun a b => (a, b)⟩

/-
Theorems.  Helper lemmas come first, then one theorem per claim (with its
witness or counterexample where required).
-/

/-- Helper: inversion of _get_data_and_axes on success. -/
theorem get_data_ok_inv (slc : Slice) (ax : AxesOut) (h : _get_data_and_axes slc = .ok ax) :
    slc.data = some ax.data
    ∧ ax.elevation_deg = slc.elevation.getD 0
    ∧ ax.r0_m = slc.rstart.getD 0
    ∧ ax.dr_m = slc.rscale.getD 1000
    ∧ ax.az_deg = azAxis slc ax.data
    ∧ ((∃ r rs, slc.raysRay = some (r :: rs)
          ∧ ax.ranges_m = rangeAxis ax.r0_m ax.dr_m (r.bins.getD ax.data.ncols))
       ∨ (slc.raysRay = none ∧ ax.ranges_m = rangeAxis ax.r0_m ax.dr_m ax.data.ncols)) := by
  unfold _get_data_and_axes at h
  cases hd : slc.data with
  | none => rw [hd] at h; cases h
  | some data =>
    rw [hd] at h
    cases hr : slc.raysRay with
    | none =>
      rw [hr] at h
      cases h
      exact ⟨rfl, rfl, rfl, rfl, rfl, Or.inr ⟨rfl, rfl⟩⟩
    | some l =>
      rw [hr] at h
      cases l with
      | nil => cases h
      | cons r rs =>
        cases h
        exact ⟨rfl, rfl, rfl, rfl, rfl, Or.inl ⟨r, rs, rfl, rfl⟩⟩

/-- Helper: the only error forms of _get_data_and_axes are the missing data
block and the empty-ray-list IndexError. -/
theorem get_data_err_cases (slc : Slice) (e : ExtractErr)
    (h : _get_data_and_axes slc = .error e) :
    (e = .missingData ∧ slc.data = none)
    ∨ (e = .indexError ∧ slc.raysRay = some [] ∧ ∃ d, slc.data = some d) := by
  unfold _get_data_and_axes at h
  cases hd : slc.data with
  | none => rw [hd] at h; cases h; exact Or.inl ⟨rfl, rfl⟩
  | some data =>
    rw [hd] at h
    cases hr : slc.raysRay with
    | none => rw [hr] at h; cases h
    | some l =>
      rw [hr] at h
      cases l with
      | nil => cases h; exact Or.inr ⟨rfl, rfl, data, rfl⟩
      | cons r rs => cases h

/-- Helper: inversion of read_azi_tree on success. -/
theorem read_azi_ok_inv (t : AziTree) (ds : PolarDS) (h : read_azi_tree t = .ok ds) :
    ∃ slc ax, _extract_slice t = .ok slc ∧ _get_data_and_axes slc = .ok ax
    ∧ ax.az_deg.length = ax.data.nrows ∧ ax.ranges_m.length = ax.data.ncols
    ∧ ds.values = ax.data ∧ ds.azimuth = ax.az_deg ∧ ds.range = ax.ranges_m
    ∧ ds.elevation_deg = some ax.elevation_deg
    ∧ ds.radar_lon = _safe_float ((t.volume.bind Volume.sensorinfo).bind SensorInfo.lon)
    ∧ ds.radar_lat = _safe_float ((t.volume.bind Volume.sensorinfo).bind SensorInfo.lat)
    ∧ ds.radar_alt = _safe_float ((t.volume.bind Volume.sensorinfo).bind SensorInfo.alt) := by
  unfold read_azi_tree at h
  cases he : _extract_slice t with
  | error e => rw [he] at h; cases h
  | ok slc =>
    rw [he] at h
    dsimp only at h
    cases hg : _get_data_and_axes slc with
    | error e => rw [hg] at h; dsimp only at h; cases h
    | ok ax =>
      rw [hg] at h
      dsimp only at h
      by_cases hsh : (ax.az_deg.length = ax.data.nrows ∧ ax.ranges_m.length = ax.data.ncols)
      · rw [if_pos hsh] at h
        cases h
        exact ⟨slc, ax, rfl, hg, hsh.1, hsh.2, rfl, rfl, rfl, rfl, rfl, rfl, rfl⟩
      · rw [if_neg hsh] at h; cases h

/-- C4 (confirmed): for every decoded tree, the extractor pipeline fails
with the MalformedInput ValueError naming the missing key exactly when one
of the keys volume, scan, slice is absent along the path volume to scan to
slice, and with the MalformedInput error for the data block exactly when
the located slice lacks a decoded data block; the only keys ever named are
volume, scan and slice, and when the path and data block are intact no
such error is produced. -/
theorem extractor_missing_key_iff (t : AziTree) :
    (read_azi_tree t = .error (.missingKey "volume") ↔ t.volume = none)
    ∧ (read_azi_tree t = .error (.missingKey "scan")
        ↔ ∃ v, t.volume = some v ∧ v.scan = none)
    ∧ (read_azi_tree t = .error (.missingKey "slice")
        ↔ ∃ v sc, t.volume = some v ∧ v.scan = some sc ∧ sc.slice = none)
    ∧ (read_azi_tree t = .error .missingData
        ↔ ∃ slc, treeSlice t = some slc ∧ slc.data = none)
    ∧ (∀ k, read_azi_tree t = .error (.missingKey k) →
        k = "volume" ∨ k = "scan" ∨ k = "slice") := by
  obtain ⟨vol⟩ := t
  cases vol with
  | none =>
    simp [read_azi_tree, _extract_slice, treeSlice]
  | some v =>
    obtain ⟨sc, si⟩ := v
    cases sc with
    | none =>
      simp [read_azi_tree, _extract_slice, treeSlice]
    | some s =>
      obtain ⟨sl⟩ := s
      cases sl with
      | none =>
        simp [read_azi_tree, _extract_slice, treeSlice]
      | some slc =>
        have htree : treeSlice ⟨some ⟨some ⟨some slc⟩, si⟩⟩ = some slc := rfl
        cases hg : _get_data_and_axes slc with
        | error e =>
          have hread : read_azi_tree ⟨some ⟨some ⟨some slc⟩, si⟩⟩ = .error e := by
            simp [read_azi_tree, _extract_slice, hg]
          rcases get_data_err_cases slc e hg with ⟨he, hd⟩ | ⟨he, hr, d, hd⟩
          · subst he
            simp [hread, htree, hd]
          · subst he
            simp [hread, htree, hd]
        | ok ax =>
          have hd := (get_data_ok_inv slc ax hg).1
          by_cases hsh : (ax.az_deg.length = ax.data.nrows ∧ ax.ranges_m.length = ax.data.ncols)
          · have hread : read_azi_tree ⟨some ⟨some ⟨some slc⟩, si⟩⟩
                = .ok ⟨ax.data, ax.az_deg, ax.ranges_m,
                      ((slc.param.bind Param.name).getD "dBZ"),
                      ((slc.param.bind Param.units).getD "dBZ"),
                      some ax.elevation_deg, ax.r0_m, ax.dr_m,
                      _safe_float (si.bind SensorInfo.lon),
                      _safe_float (si.bind SensorInfo.lat),
                      _safe_float (si.bind SensorInfo.alt)⟩ := by
              simp [read_azi_tree, _extract_slice, hg, if_pos hsh]
            simp [hread, htree, hd]
          · have hread : read_azi_tree ⟨some ⟨some ⟨some slc⟩, si⟩⟩ = .error .shapeError := by
              simp [read_azi_tree, _extract_slice, hg, if_neg hsh]
            simp [hread, htree, hd]

/-- Witness for C4: the volume-missing error fires on the empty tree and
names one of the three structural keys. -/
theorem extractor_missing_key_iff_witness :
    read_azi_tree ⟨none⟩ = .error (.missingKey "volume")
    ∧ ("volume" = "volume" ∨ "volume" = "scan" ∨ "volume" = "slice") :=
  ⟨(extractor_missing_key_iff ⟨none⟩).1.mpr rfl,
   (extractor_missing_key_iff ⟨none⟩).2.2.2.2 "volume"
     ((extractor_missing_key_iff ⟨none⟩).1.mpr rfl)⟩

/-- Helper: length of rangeAxis. -/
theorem rangeAxis_length (r0 dr : ℚ) (n : Nat) : (rangeAxis r0 dr n).length = n := by
  simp [rangeAxis]

/-- Helper: entries of rangeAxis. -/
theorem rangeAxis_getD (r0 dr : ℚ) (n i : Nat) (h : i < n) :
    (rangeAxis r0 dr n).getD i 0 = r0 + dr * (i : ℚ) := by
  rw [rangeAxis, List.getD_eq_getElem?_getD, List.getElem?_map, List.getElem?_range h]
  rfl

/-- C7 (confirmed): for every slice the extractor accepts, the range
coordinate satisfies ranges_m[i] = range_start + i * range_step with
range_start defaulting to 0 and range_step to 1000 when the metadata
fields are absent, and the bin count is the first declared ray count when
a ray list is present (falling back to the trailing data dimension when
that ray declares no bin count), else the trailing data dimension. -/
theorem range_axis_formula (slc : Slice) (ax : AxesOut)
    (h : _get_data_and_axes slc = .ok ax) :
    slc.data = some ax.data
    ∧ ax.r0_m = slc.rstart.getD 0
    ∧ ax.dr_m = slc.rscale.getD 1000
    ∧ (∀ i, i < ax.ranges_m.length → ax.ranges_m.getD i 0 = ax.r0_m + ax.dr_m * (i : ℚ))
    ∧ (∀ r rs, slc.raysRay = some (r :: rs) → ax.ranges_m.length = r.bins.getD ax.data.ncols)
    ∧ (slc.raysRay = none → ax.ranges_m.length = ax.data.ncols) := by
  obtain ⟨hd, helev, hr0, hdr, haz, hrng⟩ := get_data_ok_inv slc ax h
  rcases hrng with ⟨r, rs, hray, hrange⟩ | ⟨hray, hrange⟩
  · refine ⟨hd, hr0, hdr, ?_, ?_, ?_⟩
    · intro i hi
      rw [hrange] at hi ⊢
      rw [rangeAxis_length] at hi
      exact rangeAxis_getD _ _ _ _ hi
    · intro r' rs' hray'
      rw [hray'] at hray
      cases hray
      rw [hrange, rangeAxis_length]
    · intro hnone
      rw [hnone] at hray
      cases hray
  · refine ⟨hd, hr0, hdr, ?_, ?_, ?_⟩
    · intro i hi
      rw [hrange] at hi ⊢
      rw [rangeAxis_length] at hi
      exact rangeAxis_getD _ _ _ _ hi
    · intro r' rs' hray'
      rw [hray'] at hray
      cases hray
    · intro hnone
      rw [hrange, rangeAxis_length]

/-- Witness for C7: on wfSlice the range axis is [0, 1000, 2000], its
third entry satisfies the formula and its length is the declared bin
count of the first ray. -/
theorem range_axis_formula_witness :
    wfAxes.ranges_m.getD 2 0 = wfAxes.r0_m + wfAxes.dr_m * (2 : ℚ)
    ∧ wfAxes.ranges_m.length = (Ray.mk (some 3)).bins.getD wfAxes.data.ncols :=
  ⟨(range_axis_formula wfSlice wfAxes (by decide)).2.2.2.1 2 (by decide),
   (range_axis_formula wfSlice wfAxes (by decide)).2.2.2.2.1 ⟨some 3⟩ [] rfl⟩

/-- Helper: length of linspace360. -/
theorem linspace360_length (n : Nat) : (linspace360 n).length = n := by
  rw [linspace360, List.length_map, List.length_range]

/-- Helper: entries of linspace360. -/
theorem linspace360_getD (n i : Nat) (h : i < n) :
    (linspace360 n).getD i 0 = 360 * (i : ℚ) / (n : ℚ) := by
  rw [linspace360, List.getD_eq_getElem?_getD, List.getElem?_map, List.getElem?_range h]
  rfl

/-- C8 (confirmed): for every slice the extractor accepts that declares no
explicit angle list, the azimuth axis is fabricated as n_az uniformly
spaced angles 360 * i / n_az starting at 0 and staying below 360, with
n_az the leading data dimension; when an explicit angle list is declared
it is used unchanged. -/
theorem azimuth_axis_formula (slc : Slice) (ax : AxesOut)
    (h : _get_data_and_axes slc = .ok ax) :
    (slc.anglesA = none →
      ax.az_deg.length = ax.data.nrows
      ∧ (∀ i, i < ax.az_deg.length →
          ax.az_deg.getD i 0 = 360 * (i : ℚ) / (ax.az_deg.length : ℚ)
          ∧ 0 ≤ ax.az_deg.getD i 0 ∧ ax.az_deg.getD i 0 < 360))
    ∧ (∀ l, slc.anglesA = some l → ax.az_deg = l) := by
  obtain ⟨hd, helev, hr0, hdr, haz, hrng⟩ := get_data_ok_inv slc ax h
  constructor
  · intro hnone
    have haz' : ax.az_deg = linspace360 ax.data.nrows := by
      rw [haz, azAxis, hnone]
    have hlen : ax.az_deg.length = ax.data.nrows := by
      rw [haz', linspace360_length]
    refine ⟨hlen, ?_⟩
    intro i hi
    rw [hlen] at hi
    have hn : 0 < ax.data.nrows := Nat.lt_of_le_of_lt (Nat.zero_le i) hi
    have hnq : (0 : ℚ) < (ax.data.nrows : ℚ) := by exact_mod_cast hn
    have hgd : ax.az_deg.getD i 0 = 360 * (i : ℚ) / (ax.data.nrows : ℚ) := by
      rw [haz']
      exact linspace360_getD _ _ hi
    refine ⟨by rw [hgd, hlen], ?_, ?_⟩
    · rw [hgd]
      positivity
    · rw [hgd]
      rw [div_lt_iff₀ hnq]
      have hiq : (i : ℚ) < (ax.data.nrows : ℚ) := by exact_mod_cast hi
      nlinarith
  · intro l hl
    rw [haz, azAxis, hl]

/-- Witness for C8: wfSlice declares no angle list and a 2-row data block,
so the fabricated axis is [0, 180]; its second entry matches the uniform
formula and lies in [0, 360). -/
theorem azimuth_axis_formula_witness :
    wfAxes.az_deg.length = wfAxes.data.nrows
    ∧ wfAxes.az_deg.getD 1 0 = 360 * (1 : ℚ) / (wfAxes.az_deg.length : ℚ)
    ∧ 0 ≤ wfAxes.az_deg.getD 1 0 ∧ wfAxes.az_deg.getD 1 0 < 360 :=
  ⟨((azimuth_axis_formula wfSlice wfAxes (by decide)).1 rfl).1,
   ((azimuth_axis_formula wfSlice wfAxes (by decide)).1 rfl).2 1 (by decide)⟩

/-- C9 (confirmed): a radar position attribute that is absent or does not
parse as a float becomes NaN through _safe_float and is stored as such in
the scan attributes; extraction success never depends on the sensorinfo
block, so a malformed position is never the cause of a failure. -/
theorem radar_position_nan (t : AziTree) :
    (∀ v : Option PyVal, (v = none ∨ v = some .unparseable) → _safe_float v = Fv.nan)
    ∧ (∀ ds, read_azi_tree t = .ok ds →
        (((t.volume.bind Volume.sensorinfo).bind SensorInfo.lon = none
            ∨ (t.volume.bind Volume.sensorinfo).bind SensorInfo.lon = some .unparseable) →
          ds.radar_lon = Fv.nan)
        ∧ (((t.volume.bind Volume.sensorinfo).bind SensorInfo.lat = none
            ∨ (t.volume.bind Volume.sensorinfo).bind SensorInfo.lat = some .unparseable) →
          ds.radar_lat = Fv.nan)
        ∧ (((t.volume.bind Volume.sensorinfo).bind SensorInfo.alt = none
            ∨ (t.volume.bind Volume.sensorinfo).bind SensorInfo.alt = some .unparseable) →
          ds.radar_alt = Fv.nan))
    ∧ (∀ si, (read_azi_tree (setSensorinfo t si)).isOk = (read_azi_tree t).isOk) := by
  refine ⟨?_, ?_, ?_⟩
  · intro v hv
    rcases hv with rfl | rfl <;> rfl
  · intro ds h
    obtain ⟨slc, ax, he, hg, h1, h2, hval, hazm, hrg, helev, hlon, hlat, halt⟩ :=
      read_azi_ok_inv t ds h
    refine ⟨?_, ?_, ?_⟩
    · intro hv
      rw [hlon]
      rcases hv with hv | hv <;> rw [hv] <;> rfl
    · intro hv
      rw [hlat]
      rcases hv with hv | hv <;> rw [hv] <;> rfl
    · intro hv
      rw [halt]
      rcases hv with hv | hv <;> rw [hv] <;> rfl
  · intro si
    obtain ⟨vol⟩ := t
    cases vol with
    | none => rfl
    | some v =>
      obtain ⟨sc, si0⟩ := v
      show (read_azi_tree ⟨some ⟨sc, si⟩⟩).isOk = (read_azi_tree ⟨some ⟨sc, si0⟩⟩).isOk
      cases sc with
      | none => rfl
      | some s =>
        obtain ⟨sl⟩ := s
        cases sl with
        | none => rfl
        | some slc =>
          cases hg : _get_data_and_axes slc with
          | error e =>
            simp [read_azi_tree, _extract_slice, hg]
          | ok ax =>
            by_cases hsh : (ax.az_deg.length = ax.data.nrows ∧ ax.ranges_m.length = ax.data.ncols)
            · simp [read_azi_tree, _extract_slice, hg, if_pos hsh, Except.isOk, Except.toBool]
            · simp [read_azi_tree, _extract_slice, hg, if_neg hsh, Except.isOk, Except.toBool]

/-- Witness for C9: on wfTree (unparseable longitude, missing latitude)
the stored positions are NaN. -/
theorem radar_position_nan_witness :
    _safe_float none = Fv.nan ∧ wfDS.radar_lon = Fv.nan ∧ wfDS.radar_lat = Fv.nan :=
  ⟨(radar_position_nan wfTree).1 none (Or.inl rfl),
   ((radar_position_nan wfTree).2.1 wfDS (by decide)).1 (Or.inr rfl),
   ((radar_position_nan wfTree).2.1 wfDS (by decide)).2.1 (Or.inl rfl)⟩

/-- C10 (confirmed): a polar dataset lacking the elevation_deg attribute is
georeferenced without failure exactly as if its elevation were 0: the
result keeps the input dataset and its attached lon/lat/alt coordinate
arrays coincide with those of the explicit zero-elevation run, because the
attribute is read with a silent 0.0 default even though the documentation
of polar_dataset_to_lonlat declares it required. -/
theorem polar_lonlat_elev_default (gm : GeoModel) (ds : PolarDS)
    (radar_lon radar_lat radar_alt_m : ℚ) (h : ds.elevation_deg = none) :
    (polar_dataset_to_lonlat gm ds radar_lon radar_lat radar_alt_m).base = ds
    ∧ (polar_dataset_to_lonlat gm ds radar_lon radar_lat radar_alt_m).lon
      = (polar_dataset_to_lonlat gm (setElev ds (some 0)) radar_lon radar_lat radar_alt_m).lon
    ∧ (polar_dataset_to_lonlat gm ds radar_lon radar_lat radar_alt_m).lat
      = (polar_dataset_to_lonlat gm (setElev ds (some 0)) radar_lon radar_lat radar_alt_m).lat
    ∧ (polar_dataset_to_lonlat gm ds radar_lon radar_lat radar_alt_m).alt
      = (polar_dataset_to_lonlat gm (setElev ds (some 0)) radar_lon radar_lat radar_alt_m).alt := by
  obtain ⟨v, az, rg, nm, u, e, r0, dr, lo, la, al⟩ := ds
  cases h
  exact ⟨rfl, rfl, rfl, rfl⟩

/-- Witness for C10: the fixture dataset without elevation georeferences
identically to its explicit zero-elevation copy. -/
theorem polar_lonlat_elev_default_witness :
    (polar_dataset_to_lonlat geoFix dsNoElev 1 2 3).base = dsNoElev
    ∧ (polar_dataset_to_lonlat geoFix dsNoElev 1 2 3).lon
      = (polar_dataset_to_lonlat geoFix (setElev dsNoElev (some 0)) 1 2 3).lon :=
  ⟨(polar_lonlat_elev_default geoFix dsNoElev 1 2 3 rfl).1,
   (polar_lonlat_elev_default geoFix dsNoElev 1 2 3 rfl).2.1⟩

/-- C3 (confirmed): for every tree the extractor accepts, the produced
polar scan satisfies the shape invariant values.shape = (len azimuth,
len range) - the xarray coordinate validation enforces it even when the
bin count came from the first declared ray - and the georeferencing stage
preserves it: the attached lon/lat/alt arrays have exactly that shape. -/
theorem polar_shape_invariant (t : AziTree) (ds : PolarDS)
    (h : read_azi_tree t = .ok ds) :
    (ds.values.nrows = ds.azimuth.length ∧ ds.values.ncols = ds.range.length)
    ∧ ∀ (gm : GeoModel) (rlon rlat ralt : ℚ),
        (polar_dataset_to_lonlat gm ds rlon rlat ralt).lon.length = ds.azimuth.length
        ∧ (∀ row ∈ (polar_dataset_to_lonlat gm ds rlon rlat ralt).lon,
            row.length = ds.range.length)
        ∧ (polar_dataset_to_lonlat gm ds rlon rlat ralt).lat.length = ds.azimuth.length
        ∧ (∀ row ∈ (polar_dataset_to_lonlat gm ds rlon rlat ralt).lat,
            row.length = ds.range.length)
        ∧ (polar_dataset_to_lonlat gm ds rlon rlat ralt).alt.length = ds.azimuth.length
        ∧ (∀ row ∈ (polar_dataset_to_lonlat gm ds rlon rlat ralt).alt,
            row.length = ds.range.length) := by
  obtain ⟨slc, ax, he, hg, h1, h2, hval, hazm, hrg, helev, hlon, hlat, halt⟩ :=
    read_azi_ok_inv t ds h
  constructor
  · constructor
    · rw [hval, hazm, h1]
    · rw [hval, hrg, h2]
  · intro gm rlon rlat ralt
    refine ⟨?_, ?_, ?_, ?_, ?_, ?_⟩ <;>
      simp [polar_dataset_to_lonlat, xyz_to_lonlat, polar_to_xyz]

/-- Witness for C3: the wfTree extraction satisfies the shape invariant
and its georeferenced lon array has one row per azimuth. -/
theorem polar_shape_invariant_witness :
    (wfDS.values.nrows = wfDS.azimuth.length ∧ wfDS.values.ncols = wfDS.range.length)
    ∧ (polar_dataset_to_lonlat geoFix wfDS 1 2 3).lon.length = wfDS.azimuth.length :=
  ⟨(polar_shape_invariant wfTree wfDS (by decide)).1,
   ((polar_shape_invariant wfTree wfDS (by decide)).2 geoFix 1 2 3).1⟩

/-- Helper: getD through List.map at an in-range index. -/
theorem map_getD_of_lt {α β : Type} (f : α → β) (l : List α) (j : Nat) (d : β) (e : α)
    (hj : j < l.length) : (l.map f).getD j d = f (l.getD j e) := by
  rw [List.getD_eq_getElem?_getD, List.getElem?_map, List.getElem?_eq_getElem hj,
    List.getD_eq_getElem?_getD, List.getElem?_eq_getElem hj]
  rfl

/-- Helper: inversion of polar_to_grid_2d on success: the EPSG was valid,
the axes were built, and the output is the nodata fill or the knn fill
according to the candidate set. -/
theorem polar_to_grid_ok_inv (p : ProjModel) (samples : List Sample) (epsg : Int)
    (dx dy buffer_m nodata : ℚ) (g : GridOut)
    (h : polar_to_grid_2d p samples epsg dx dy buffer_m nodata = .ok g) :
    p.validEpsg epsg = true
    ∧ ∃ xs ys,
        gridAxes ((projXY p samples).map Prod.fst) ((projXY p samples).map Prod.snd)
          dx dy buffer_m = .ok (xs, ys)
        ∧ ((candidates p samples = [] ∧ g = emptyGrid xs ys nodata epsg)
           ∨ (candidates p samples ≠ [] ∧ g = knnGrid xs ys (candidates p samples) nodata epsg)) := by
  unfold polar_to_grid_2d at h
  by_cases hv : p.validEpsg epsg = false
  · rw [if_pos hv] at h; cases h
  · rw [if_neg hv] at h
    dsimp only at h
    refine ⟨by revert hv; cases p.validEpsg epsg <;> simp, ?_⟩
    cases ha : gridAxes ((projXY p samples).map Prod.fst) ((projXY p samples).map Prod.snd)
        dx dy buffer_m with
    | error e => rw [ha] at h; cases h
    | ok xy =>
      obtain ⟨xs, ys⟩ := xy
      rw [ha] at h
      dsimp only at h
      by_cases hc : (candidates p samples).isEmpty
      · rw [if_pos hc] at h
        cases h
        exact ⟨xs, ys, rfl, Or.inl ⟨List.isEmpty_iff.mp hc, rfl⟩⟩
      · rw [if_neg hc] at h
        cases h
        refine ⟨xs, ys, rfl, Or.inr ⟨?_, rfl⟩⟩
        intro hnil
        exact hc (by rw [hnil]; rfl)

/-- C1 (corrected): when no sample is fully finite (empty candidate set),
any grid polar_to_grid_2d does return has the axes shape and every cell
equal to the nodata sentinel; contrary to the claim, such inputs can also
raise, because the bounding-box step is not skipped (see the
counterexample). -/
theorem empty_candidates_nodata_grid (p : ProjModel) (samples : List Sample) (epsg : Int)
    (dx dy buffer_m nodata : ℚ) (g : GridOut)
    (hc : candidates p samples = [])
    (h : polar_to_grid_2d p samples epsg dx dy buffer_m nodata = .ok g) :
    g.out.length = g.ys.length
    ∧ (∀ j, j < g.out.length → (g.out.getD j []).length = g.xs.length)
    ∧ (∀ j i, j < g.out.length → i < (g.out.getD j []).length → g.cell j i = .fin nodata) := by
  obtain ⟨hv, xs, ys, ha, hcase⟩ := polar_to_grid_ok_inv p samples epsg dx dy buffer_m nodata g h
  rcases hcase with ⟨_, rfl⟩ | ⟨hne, _⟩
  · have hlen : (emptyGrid xs ys nodata epsg).out.length = ys.length := by
      simp [emptyGrid]
    refine ⟨by simp [emptyGrid], ?_, ?_⟩
    · intro j hj
      rw [hlen] at hj
      show ((ys.map fun _ => xs.map fun _ => Fv.fin nodata).getD j []).length = xs.length
      rw [map_getD_of_lt _ ys j [] (0 : ℚ) hj, List.length_map]
    · intro j i hj hi
      rw [hlen] at hj
      have hrow : (emptyGrid xs ys nodata epsg).out.getD j [] = xs.map fun _ => Fv.fin nodata := by
        show (ys.map fun _ => xs.map fun _ => Fv.fin nodata).getD j [] = _
        rw [map_getD_of_lt _ ys j [] (0 : ℚ) hj]
      rw [hrow, List.length_map] at hi
      show ((emptyGrid xs ys nodata epsg).out.getD j []).getD i Fv.nan = Fv.fin nodata
      rw [hrow, map_getD_of_lt _ xs i Fv.nan (0 : ℚ) hi]
  · exact absurd hc hne

/-- Counterexample for C1: a scan whose single sample has a finite value
but NaN coordinates satisfies the premise of the claim (no sample is fully
finite), yet polar_to_grid_2d raises a ValueError from the axis
construction instead of returning a nodata grid: the non-finite projected
coordinates make nanmin/nanmax non-finite and np.arange cannot compute a
length, because the code never skips the bounding-box step. -/
theorem empty_candidates_nodata_grid_cex :
    ((c1samples.zip (projXY pyProjLike c1samples)).all
        fun sxy => (finTriple sxy.1 sxy.2).isNone) = true
    ∧ candidates pyProjLike c1samples = []
    ∧ polar_to_grid_2d pyProjLike c1samples 32717 500 500 1000 (-9999)
        = .error (.numericError "Maximum allowed size exceeded") :=
  ⟨by decide, by decide, by decide⟩

/-- Witness for C1: a NaN-valued sample with finite coordinates yields the
all-nodata grid g1ok, whose cell (2, 3) is the sentinel. -/
theorem empty_candidates_nodata_grid_witness :
    g1ok.out.length = g1ok.ys.length ∧ GridOut.cell g1ok 2 3 = .fin (-9999) :=
  ⟨(empty_candidates_nodata_grid pyProjLike c1okSamples 32717 500 500 1000 (-9999) g1ok
      (by decide) (by decide)).1,
   (empty_candidates_nodata_grid pyProjLike c1okSamples 32717 500 500 1000 (-9999) g1ok
      (by decide) (by decide)).2.2 2 3 (by decide) (by decide)⟩

/-- Helper: np_nanmin only raises the numpy ValueError. -/
theorem np_nanmin_err (l : List Fv) (e : GridErr) (h : np_nanmin l = .error e) :
    ∃ msg, e = .numericError msg := by
  cases l with
  | nil => cases h; exact ⟨_, rfl⟩
  | cons a r => cases h

/-- Helper: np_nanmax only raises the numpy ValueError. -/
theorem np_nanmax_err (l : List Fv) (e : GridErr) (h : np_nanmax l = .error e) :
    ∃ msg, e = .numericError msg := by
  cases l with
  | nil => cases h; exact ⟨_, rfl⟩
  | cons a r => cases h

/-- Helper: np_arange only raises numeric errors. -/
theorem np_arange_err (a b : Fv) (s : ℚ) (e : GridErr) (h : np_arange a b s = .error e) :
    ∃ msg, e = .numericError msg := by
  unfold np_arange at h
  cases a <;> cases b <;> dsimp only at h
  case fin.fin qa qb =>
    by_cases hs : s = 0
    · rw [if_pos hs] at h; cases h; exact ⟨_, rfl⟩
    · rw [if_neg hs] at h; cases h
  all_goals (cases h; exact ⟨_, rfl⟩)

/-- Helper: every error of the axis construction is a numeric error. -/
theorem gridAxes_err (X Y : List Fv) (dx dy buffer_m : ℚ) (e : GridErr)
    (h : gridAxes X Y dx dy buffer_m = .error e) : ∃ msg, e = .numericError msg := by
  unfold gridAxes at h
  cases X with
  | nil =>
    cases Y <;> dsimp only [np_nanmin, np_nanmax] at h <;> (cases h; exact ⟨_, rfl⟩)
  | cons x xr =>
    cases Y with
    | nil =>
      dsimp only [np_nanmin, np_nanmax] at h
      cases h
      exact ⟨_, rfl⟩
    | cons y yr =>
      dsimp only [np_nanmin, np_nanmax] at h
      cases h5 : np_arange ((xr.foldl Fv.fmin x).subQ buffer_m)
          (((xr.foldl Fv.fmax x).addQ buffer_m).addQ dx) dx with
      | error e5 =>
        rw [h5] at h
        cases h6 : np_arange ((yr.foldl Fv.fmin y).subQ buffer_m)
            (((yr.foldl Fv.fmax y).addQ buffer_m).addQ dy) dy <;>
          rw [h6] at h <;> dsimp only at h <;> (cases h; exact np_arange_err _ _ _ _ h5)
      | ok xs =>
        rw [h5] at h
        cases h6 : np_arange ((yr.foldl Fv.fmin y).subQ buffer_m)
            (((yr.foldl Fv.fmax y).addQ buffer_m).addQ dy) dy with
        | error e6 =>
          rw [h6] at h
          dsimp only at h
          cases h
          exact np_arange_err _ _ _ _ h6
        | ok ys =>
          rw [h6] at h
          dsimp only at h
          cases h

/-- C2 (corrected): the gridding step raises the projection error naming
the coordinate system exactly when the projection identifier is invalid;
an input coordinate outside the valid domain of the projection does not
raise a projection error, because the default-mode transformer returns
non-finite coordinates instead (any failure it then triggers is a numeric
ValueError from the axis construction, see the counterexample). -/
theorem projection_error_iff (p : ProjModel) (samples : List Sample) (epsg : Int)
    (dx dy buffer_m nodata : ℚ) (e : Int) :
    polar_to_grid_2d p samples epsg dx dy buffer_m nodata = .error (.crsError e)
      ↔ (p.validEpsg epsg = false ∧ e = epsg) := by
  constructor
  · intro h
    unfold polar_to_grid_2d at h
    by_cases hv : p.validEpsg epsg = false
    · rw [if_pos hv] at h
      refine ⟨hv, ?_⟩
      injection h with h2
      injection h2 with h3
      exact h3.symm
    · rw [if_neg hv] at h
      dsimp only at h
      cases ha : gridAxes ((projXY p samples).map Prod.fst) ((projXY p samples).map Prod.snd)
          dx dy buffer_m with
      | error e2 =>
        rw [ha] at h
        dsimp only at h
        injection h with h2
        obtain ⟨msg, hmsg⟩ := gridAxes_err _ _ _ _ _ _ ha
        rw [hmsg] at h2
        cases h2
      | ok xy =>
        obtain ⟨xs, ys⟩ := xy
        rw [ha] at h
        dsimp only at h
        by_cases hc : (candidates p samples).isEmpty
        · rw [if_pos hc] at h; cases h
        · rw [if_neg hc] at h; cases h
  · rintro ⟨hv, rfl⟩
    unfold polar_to_grid_2d
    rw [if_pos hv]

/-- Counterexample for C2: under boundedProj the longitude 200 lies outside
the valid projection domain (its transform is non-finite), the EPSG code is
valid, and the claim then demands a projection error; the code instead
raises the numeric ValueError of the axis construction, which names no
coordinate system. -/
theorem projection_error_iff_cex :
    boundedProj.validEpsg 32717 = true
    ∧ (boundedProj.tx (.fin 200) (.fin 0)).1.isFinite = false
    ∧ polar_to_grid_2d boundedProj c2samples 32717 500 500 1000 (-9999)
        = .error (.numericError "Maximum allowed size exceeded") :=
  ⟨by decide, by decide, by decide⟩

/-- Helper: specification of the linear nearest scan.  Starting from a
valid best index whose distance is bd and a suffix l of the full point
list placed at offset k, the scan returns an index of the full list whose
distance does not exceed bd and is minimal over the suffix. -/
theorem nearestAux_spec (q : ℚ × ℚ) (l : List (ℚ × ℚ)) :
    ∀ (k best : Nat) (bd : ℚ) (full : List (ℚ × ℚ)),
      (∀ i, i < l.length → full.getD (k + i) (0, 0) = l.getD i (0, 0)) →
      best < full.length →
      d2 q (full.getD best (0, 0)) = bd →
      k + l.length = full.length →
      nearestAux q l k best bd < full.length
      ∧ d2 q (full.getD (nearestAux q l k best bd) (0, 0)) ≤ bd
      ∧ ∀ i, k ≤ i → i < full.length →
          d2 q (full.getD (nearestAux q l k best bd) (0, 0)) ≤ d2 q (full.getD i (0, 0)) := by
  induction l with
  | nil =>
    intro k best bd full hfull hbest hbd hk
    refine ⟨hbest, le_of_eq hbd, ?_⟩
    intro i hki hi
    simp at hk
    exact absurd hi (by omega)
  | cons pt rest ih =>
    intro k best bd full hfull hbest hbd hk
    have hptfull : full.getD k (0, 0) = pt := by
      have h0 := hfull 0 (by simp)
      simpa using h0
    have hfull' : ∀ i, i < rest.length → full.getD (k + 1 + i) (0, 0) = rest.getD i (0, 0) := by
      intro i hi
      have := hfull (i + 1) (by simp; omega)
      rw [show k + (i + 1) = k + 1 + i by omega] at this
      simpa using this
    have hklt : k < full.length := by simp at hk; omega
    have hk' : k + 1 + rest.length = full.length := by simp at hk; omega
    rw [nearestAux]
    by_cases hlt : d2 q pt < bd
    · rw [if_pos hlt]
      obtain ⟨r1, r2, r3⟩ := ih (k + 1) k (d2 q pt) full hfull' hklt (by rw [hptfull]) hk'
      refine ⟨r1, le_trans r2 (le_of_lt hlt), ?_⟩
      intro i hki hi
      rcases Nat.eq_or_lt_of_le hki with rfl | hik
      · rw [hptfull]
        exact r2
      · exact r3 i hik hi
    · rw [if_neg hlt]
      obtain ⟨r1, r2, r3⟩ := ih (k + 1) best bd full hfull' hbest hbd hk'
      refine ⟨r1, r2, ?_⟩
      intro i hki hi
      rcases Nat.eq_or_lt_of_le hki with rfl | hik
      · rw [hptfull]
        exact le_trans r2 (le_of_not_lt hlt)
      · exact r3 i hik hi

/-- Helper: the k=1 query returns an in-range index at minimal distance. -/
theorem nearestIdx_spec (pts : List (ℚ × ℚ)) (q : ℚ × ℚ) (h : pts ≠ []) :
    nearestIdx pts q < pts.length
    ∧ ∀ m, m < pts.length →
        d2 q (pts.getD (nearestIdx pts q) (0, 0)) ≤ d2 q (pts.getD m (0, 0)) := by
  cases pts with
  | nil => exact absurd rfl h
  | cons p rest =>
    obtain ⟨r1, r2, r3⟩ := nearestAux_spec q rest 1 0 (d2 q p) (p :: rest)
      (fun i hi => by rw [show 1 + i = i + 1 by omega]; rfl)
      (by simp) rfl (by simp [Nat.add_comm])
    refine ⟨r1, ?_⟩
    intro m hm
    cases m with
    | zero => exact r2
    | succ m0 => exact r3 (m0 + 1) (by omega) hm

/-- Helper: cell (j, i) of the knn fill is the knn cell at the grid-center
coordinates (xs[i], ys[j]). -/
theorem knnGrid_cell (xs ys : List ℚ) (cands : List (ℚ × ℚ × ℚ)) (nd : ℚ) (epsg : Int)
    (j i : Nat) (hj : j < ys.length) (hi : i < xs.length) :
    (knnGrid xs ys cands nd epsg).cell j i = knnCell cands nd (xs.getD i 0) (ys.getD j 0) := by
  show ((ys.map fun y => xs.map fun x => knnCell cands nd x y).getD j []).getD i Fv.nan = _
  rw [map_getD_of_lt _ ys j [] 0 hj, map_getD_of_lt _ xs i Fv.nan 0 hi]

/-- Helper: evaluation of one knn cell on a nonempty candidate list: the
assigned value is the value of a candidate at minimal squared distance. -/
theorem knnCell_spec (cands : List (ℚ × ℚ × ℚ)) (nd x y : ℚ) (hc : cands ≠ []) :
    ∃ k, k < cands.length
      ∧ knnCell cands nd x y = .fin ((cands.getD k (0, 0, 0)).2.2)
      ∧ ∀ m, m < cands.length →
          d2 (x, y) ((cands.getD k (0, 0, 0)).1, (cands.getD k (0, 0, 0)).2.1)
            ≤ d2 (x, y) ((cands.getD m (0, 0, 0)).1, (cands.getD m (0, 0, 0)).2.1) := by
  have hpts : (cands.map fun c => (c.1, c.2.1)) ≠ [] := by
    intro hnil
    exact hc (List.map_eq_nil_iff.mp hnil)
  obtain ⟨r1, r2⟩ := nearestIdx_spec (cands.map fun c => (c.1, c.2.1)) (x, y) hpts
  rw [List.length_map] at r1
  refine ⟨nearestIdx (cands.map fun c => (c.1, c.2.1)) (x, y), r1, ?_, ?_⟩
  · show (let val := Fv.fin ((cands.map fun c => c.2.2).getD
        (nearestIdx (cands.map fun c => (c.1, c.2.1)) (x, y)) 0);
      if val.isFinite then val else Fv.fin nd) = _
    rw [map_getD_of_lt _ cands _ 0 (0, 0, 0) r1]
    rfl
  · intro m hm
    have h1 := r2 m (by rw [List.length_map]; exact hm)
    rw [map_getD_of_lt _ cands _ (0, 0) (0, 0, 0) r1,
        map_getD_of_lt _ cands _ (0, 0) (0, 0, 0) hm] at h1
    exact h1

/-- C6 (confirmed): on a nonempty candidate set the gridding indexes
exactly the samples whose value and projected coordinates are all finite
(the mask test), assigns every output cell the value of an indexed sample
at minimal squared distance from the cell center (k = 1 nearest neighbor,
ties broken deterministically by lowest index), records the float32 dtype,
and with exactly one qualifying sample every cell takes that value; the
defensive nodata replacement never fires because indexed values are finite
by construction. -/
theorem knn_assignment (p : ProjModel) (samples : List Sample) (epsg : Int)
    (dx dy buffer_m nodata : ℚ) (g : GridOut)
    (h : polar_to_grid_2d p samples epsg dx dy buffer_m nodata = .ok g)
    (hc : candidates p samples ≠ []) :
    (∀ (s : Sample) (xy : Fv × Fv),
      (finTriple s xy).isSome = (s.v.isFinite && (xy.1.isFinite && xy.2.isFinite)))
    ∧ g.dtype = "float32"
    ∧ g.out.length = g.ys.length
    ∧ (∀ j, j < g.out.length → (g.out.getD j []).length = g.xs.length)
    ∧ (∀ j i, j < g.ys.length → i < g.xs.length →
        ∃ k, k < (candidates p samples).length
          ∧ g.cell j i = .fin (((candidates p samples).getD k (0, 0, 0)).2.2)
          ∧ ∀ m, m < (candidates p samples).length →
              d2 (g.xs.getD i 0, g.ys.getD j 0)
                  (((candidates p samples).getD k (0, 0, 0)).1,
                   ((candidates p samples).getD k (0, 0, 0)).2.1)
                ≤ d2 (g.xs.getD i 0, g.ys.getD j 0)
                  (((candidates p samples).getD m (0, 0, 0)).1,
                   ((candidates p samples).getD m (0, 0, 0)).2.1))
    ∧ (∀ c, candidates p samples = [c] →
        ∀ j i, j < g.ys.length → i < g.xs.length → g.cell j i = .fin c.2.2) := by
  obtain ⟨hv, xs, ys, ha, hcase⟩ := polar_to_grid_ok_inv p samples epsg dx dy buffer_m nodata g h
  rcases hcase with ⟨hnil, _⟩ | ⟨hne, rfl⟩
  · exact absurd hnil hc
  · have hxs : (knnGrid xs ys (candidates p samples) nodata epsg).xs = xs := rfl
    have hys : (knnGrid xs ys (candidates p samples) nodata epsg).ys = ys := rfl
    refine ⟨?_, rfl, by simp [knnGrid], ?_, ?_, ?_⟩
    · intro s xy
      obtain ⟨sv, slon, slat⟩ := s
      obtain ⟨x1, x2⟩ := xy
      cases sv <;> cases x1 <;> cases x2 <;> rfl
    · intro j hj
      have hj' : j < ys.length := by simpa [knnGrid] using hj
      show ((ys.map fun y => xs.map fun x =>
          knnCell (candidates p samples) nodata x y).getD j []).length = xs.length
      rw [map_getD_of_lt _ ys j [] 0 hj', List.length_map]
    · intro j i hj hi
      rw [hys] at hj
      rw [hxs] at hi
      rw [knnGrid_cell xs ys (candidates p samples) nodata epsg j i hj hi]
      exact knnCell_spec (candidates p samples) nodata (xs.getD i 0) (ys.getD j 0) hc
    · intro c hcands j i hj hi
      rw [hys] at hj
      rw [hxs] at hi
      rw [knnGrid_cell xs ys (candidates p samples) nodata epsg j i hj hi, hcands]
      rfl

/-- Witness for C6: the single finite sample of c6samples fills every cell
of the 3 x 3 grid g6 with its value 5. -/
theorem knn_assignment_witness :
    g6.dtype = "float32" ∧ g6.cell 0 0 = .fin 5 ∧ g6.cell 2 2 = .fin 5 :=
  ⟨(knn_assignment pyProjLike c6samples 4326 1 1 1 (-9999) g6 (by decide) (by decide)).2.1,
   (knn_assignment pyProjLike c6samples 4326 1 1 1 (-9999) g6 (by decide) (by decide)).2.2.2.2.2
     (0, 0, 5) (by decide) 0 0 (by decide) (by decide),
   (knn_assignment pyProjLike c6samples 4326 1 1 1 (-9999) g6 (by decide) (by decide)).2.2.2.2.2
     (0, 0, 5) (by decide) 2 2 (by decide) (by decide)⟩

/-- Helper: an fmin fold from a finite accumulator over a list without
infinities is the rational min fold over its finite entries. -/
theorem foldl_fmin_fin (l : List Fv) (a : ℚ)
    (h : ∀ x ∈ l, x ≠ Fv.inf ∧ x ≠ Fv.ninf) :
    l.foldl Fv.fmin (Fv.fin a) = Fv.fin ((finiteVals l).foldl min a) := by
  induction l generalizing a with
  | nil => rfl
  | cons x t ih =>
    have hx := h x (by simp)
    have ht : ∀ y ∈ t, y ≠ Fv.inf ∧ y ≠ Fv.ninf := fun y hy => h y (by simp [hy])
    cases x with
    | fin q =>
      show t.foldl Fv.fmin (Fv.fin (min a q)) = _
      rw [ih (min a q) ht]
      simp [finiteVals, List.filterMap_cons]
    | nan =>
      show t.foldl Fv.fmin (Fv.fin a) = _
      rw [ih a ht]
      simp [finiteVals, List.filterMap_cons]
    | inf => exact absurd rfl hx.1
    | ninf => exact absurd rfl hx.2

/-- Helper: an fmax fold from a finite accumulator over a list without
infinities is the rational max fold over its finite entries. -/
theorem foldl_fmax_fin (l : List Fv) (a : ℚ)
    (h : ∀ x ∈ l, x ≠ Fv.inf ∧ x ≠ Fv.ninf) :
    l.foldl Fv.fmax (Fv.fin a) = Fv.fin ((finiteVals l).foldl max a) := by
  induction l generalizing a with
  | nil => rfl
  | cons x t ih =>
    have hx := h x (by simp)
    have ht : ∀ y ∈ t, y ≠ Fv.inf ∧ y ≠ Fv.ninf := fun y hy => h y (by simp [hy])
    cases x with
    | fin q =>
      show t.foldl Fv.fmax (Fv.fin (max a q)) = _
      rw [ih (max a q) ht]
      simp [finiteVals, List.filterMap_cons]
    | nan =>
      show t.foldl Fv.fmax (Fv.fin a) = _
      rw [ih a ht]
      simp [finiteVals, List.filterMap_cons]
    | inf => exact absurd rfl hx.1
    | ninf => exact absurd rfl hx.2

/-- Helper: an fmin fold from NaN over a list without infinities is NaN
when no entry is finite and otherwise the min of the finite entries. -/
theorem foldl_fmin_nan (l : List Fv)
    (h : ∀ x ∈ l, x ≠ Fv.inf ∧ x ≠ Fv.ninf) :
    l.foldl Fv.fmin Fv.nan =
      (match finiteVals l with
       | [] => Fv.nan
       | a :: r => Fv.fin (r.foldl min a)) := by
  induction l with
  | nil => rfl
  | cons x t ih =>
    have hx := h x (by simp)
    have ht : ∀ y ∈ t, y ≠ Fv.inf ∧ y ≠ Fv.ninf := fun y hy => h y (by simp [hy])
    cases x with
    | fin q =>
      show t.foldl Fv.fmin (Fv.fin q) = _
      rw [foldl_fmin_fin t q ht]
      simp [finiteVals, List.filterMap_cons]
    | nan =>
      show t.foldl Fv.fmin Fv.nan = _
      rw [ih ht]
      simp [finiteVals, List.filterMap_cons]
    | inf => exact absurd rfl hx.1
    | ninf => exact absurd rfl hx.2

/-- Helper: an fmax fold from NaN over a list without infinities is NaN
when no entry is finite and otherwise the max of the finite entries. -/
theorem foldl_fmax_nan (l : List Fv)
    (h : ∀ x ∈ l, x ≠ Fv.inf ∧ x ≠ Fv.ninf) :
    l.foldl Fv.fmax Fv.nan =
      (match finiteVals l with
       | [] => Fv.nan
       | a :: r => Fv.fin (r.foldl max a)) := by
  induction l with
  | nil => rfl
  | cons x t ih =>
    have hx := h x (by simp)
    have ht : ∀ y ∈ t, y ≠ Fv.inf ∧ y ≠ Fv.ninf := fun y hy => h y (by simp [hy])
    cases x with
    | fin q =>
      show t.foldl Fv.fmax (Fv.fin q) = _
      rw [foldl_fmax_fin t q ht]
      simp [finiteVals, List.filterMap_cons]
    | nan =>
      show t.foldl Fv.fmax Fv.nan = _
      rw [ih ht]
      simp [finiteVals, List.filterMap_cons]
    | inf => exact absurd rfl hx.1
    | ninf => exact absurd rfl hx.2

/-- Helper: on a list with no infinities and at least one finite entry,
np.nanmin returns the minimum of the finite entries. -/
theorem nanmin_finite (l : List Fv)
    (hno : ∀ x ∈ l, x ≠ Fv.inf ∧ x ≠ Fv.ninf) (hf : finiteVals l ≠ []) :
    np_nanmin l = .ok (.fin (qListMin (finiteVals l))) := by
  cases l with
  | nil => exact absurd rfl hf
  | cons x t =>
    have hx := hno x (by simp)
    have ht : ∀ y ∈ t, y ≠ Fv.inf ∧ y ≠ Fv.ninf := fun y hy => hno y (by simp [hy])
    show Except.ok (t.foldl Fv.fmin x) = _
    cases x with
    | fin q =>
      rw [foldl_fmin_fin t q ht]
      simp [finiteVals, List.filterMap_cons, qListMin]
    | nan =>
      rw [foldl_fmin_nan t ht]
      have hftv : finiteVals (Fv.nan :: t) = finiteVals t := by
        simp [finiteVals, List.filterMap_cons]
      rw [hftv] at hf ⊢
      cases hft : finiteVals t with
      | nil => exact absurd hft hf
      | cons a r => rfl
    | inf => exact absurd rfl hx.1
    | ninf => exact absurd rfl hx.2

/-- Helper: on a list with no infinities and at least one finite entry,
np.nanmax returns the maximum of the finite entries. -/
theorem nanmax_finite (l : List Fv)
    (hno : ∀ x ∈ l, x ≠ Fv.inf ∧ x ≠ Fv.ninf) (hf : finiteVals l ≠ []) :
    np_nanmax l = .ok (.fin (qListMax (finiteVals l))) := by
  cases l with
  | nil => exact absurd rfl hf
  | cons x t =>
    have hx := hno x (by simp)
    have ht : ∀ y ∈ t, y ≠ Fv.inf ∧ y ≠ Fv.ninf := fun y hy => hno y (by simp [hy])
    show Except.ok (t.foldl Fv.fmax x) = _
    cases x with
    | fin q =>
      rw [foldl_fmax_fin t q ht]
      simp [finiteVals, List.filterMap_cons, qListMax]
    | nan =>
      rw [foldl_fmax_nan t ht]
      have hftv : finiteVals (Fv.nan :: t) = finiteVals t := by
        simp [finiteVals, List.filterMap_cons]
      rw [hftv] at hf ⊢
      cases hft : finiteVals t with
      | nil => exact absurd hft hf
      | cons a r => rfl
    | inf => exact absurd rfl hx.1
    | ninf => exact absurd rfl hx.2

/-- Helper: a min fold never exceeds its accumulator. -/
theorem foldl_min_le_init (l : List ℚ) (a : ℚ) : l.foldl min a ≤ a := by
  induction l generalizing a with
  | nil => exact le_refl a
  | cons x t ih => exact le_trans (ih (min a x)) (min_le_left a x)

/-- Helper: a max fold dominates its accumulator. -/
theorem le_foldl_max (l : List ℚ) (a : ℚ) : a ≤ l.foldl max a := by
  induction l generalizing a with
  | nil => exact le_refl a
  | cons x t ih => exact le_trans (le_max_left a x) (ih (max a x))

/-- Helper: the minimum of a nonempty rational list is at most its
maximum. -/
theorem qListMin_le_qListMax (l : List ℚ) (h : l ≠ []) : qListMin l ≤ qListMax l := by
  cases l with
  | nil => exact absurd rfl h
  | cons a r => exact le_trans (foldl_min_le_init r a) (le_foldl_max r a)

/-- Helper: arangeLen is the ceil count of numpy arange. -/
theorem arangeLen_eq_ceil (start stop step : ℚ) :
    arangeLen start stop step = (Int.ceil ((stop - start) / step)).toNat := by
  have hfl : Rat.floor (-((stop - start) / step)) = ⌊-((stop - start) / step)⌋ := by
    rw [Rat.floor_def', Rat.floor_def]
  rw [arangeLen, hfl, Int.floor_neg, neg_neg]

/-- Helper: length of arangeList. -/
theorem arangeList_length (s d : ℚ) (n : Nat) : (arangeList s d n).length = n := by
  rw [arangeList, List.length_map, List.length_range]

/-- Helper: entries of arangeList. -/
theorem arangeList_getD (s d : ℚ) (n i : Nat) (h : i < n) :
    (arangeList s d n).getD i 0 = s + d * (i : ℚ) := by
  rw [arangeList, List.getD_eq_getElem?_getD, List.getElem?_map, List.getElem?_range h]
  rfl

/-- Helper: arange(start, x1 + step, step) with a positive step and
start at most x1 has at least one element and its final element reaches
x1: the ceil semantics make the grid cover the interval end. -/
theorem arange_covers (start x1 step : ℚ) (hstep : 0 < step) (hle : start ≤ x1) :
    1 ≤ arangeLen start (x1 + step) step
    ∧ x1 ≤ start + step * ((arangeLen start (x1 + step) step : ℚ) - 1) := by
  have hq : (1 : ℚ) ≤ (x1 + step - start) / step := by
    rw [le_div_iff₀ hstep]
    linarith
  have hceil : (1 : ℤ) ≤ ⌈(x1 + step - start) / step⌉ := by
    have h2 := Int.le_ceil ((x1 + step - start) / step)
    exact_mod_cast le_trans hq h2
  have hlen : arangeLen start (x1 + step) step = (⌈(x1 + step - start) / step⌉).toNat := by
    rw [arangeLen_eq_ceil]
  constructor
  · rw [hlen]
    omega
  · have hcast : ((arangeLen start (x1 + step) step : Nat) : ℚ)
        = ((⌈(x1 + step - start) / step⌉ : ℤ) : ℚ) := by
      rw [hlen]
      exact_mod_cast congrArg Int.cast (Int.toNat_of_nonneg (by omega))
    rw [hcast]
    have h2 := Int.le_ceil ((x1 + step - start) / step)
    have h3 : x1 + step - start ≤ step * ((⌈(x1 + step - start) / step⌉ : ℤ) : ℚ) := by
      rw [mul_comm, ← div_le_iff₀ hstep]
      exact h2
    linarith

/-- Helper: with finite bounding data (no infinities, at least one finite
coordinate per axis) and nonzero steps, the axis construction succeeds and
produces exactly the buffered-bounding-box aranges. -/
theorem gridAxes_finite (X Y : List Fv) (dx dy buffer_m : ℚ)
    (hdx : dx ≠ 0) (hdy : dy ≠ 0)
    (hXno : ∀ x ∈ X, x ≠ Fv.inf ∧ x ≠ Fv.ninf) (hXf : finiteVals X ≠ [])
    (hYno : ∀ y ∈ Y, y ≠ Fv.inf ∧ y ≠ Fv.ninf) (hYf : finiteVals Y ≠ []) :
    gridAxes X Y dx dy buffer_m = .ok
      (arangeList (qListMin (finiteVals X) - buffer_m) dx
        (arangeLen (qListMin (finiteVals X) - buffer_m)
          (qListMax (finiteVals X) + buffer_m + dx) dx),
       arangeList (qListMin (finiteVals Y) - buffer_m) dy
        (arangeLen (qListMin (finiteVals Y) - buffer_m)
          (qListMax (finiteVals Y) + buffer_m + dy) dy)) := by
  unfold gridAxes
  rw [nanmin_finite X hXno hXf, nanmax_finite X hXno hXf,
      nanmin_finite Y hYno hYf, nanmax_finite Y hYno hYf]
  dsimp only [Fv.subQ, Fv.addQ, np_arange]
  rw [if_neg hdx, if_neg hdy]

/-- Helper: shape facts of one buffered arange axis: it is nonempty, it
starts exactly at the buffered minimum, and its last element reaches the
buffered maximum. -/
theorem arange_axis_facts (m M step buf : ℚ) (hstep : 0 < step) (hbuf : 0 ≤ buf)
    (hmM : m ≤ M) :
    1 ≤ (arangeList (m - buf) step (arangeLen (m - buf) (M + buf + step) step)).length
    ∧ (arangeList (m - buf) step (arangeLen (m - buf) (M + buf + step) step)).getD 0 0
        = m - buf
    ∧ M + buf ≤ (arangeList (m - buf) step (arangeLen (m - buf) (M + buf + step) step)).getD
        ((arangeList (m - buf) step (arangeLen (m - buf) (M + buf + step) step)).length - 1) 0 := by
  have hle : m - buf ≤ M + buf := by linarith
  have hassoc : M + buf + step = (M + buf) + step := by ring
  obtain ⟨h1, h2⟩ := arange_covers (m - buf) (M + buf) step hstep hle
  rw [hassoc]
  have hlen : (arangeList (m - buf) step (arangeLen (m - buf) ((M + buf) + step) step)).length
      = arangeLen (m - buf) ((M + buf) + step) step := arangeList_length _ _ _
  refine ⟨by rw [hlen]; exact h1, ?_, ?_⟩
  · rw [arangeList_getD _ _ _ 0 (by omega)]
    simp
  · rw [hlen, arangeList_getD _ _ _ _ (by omega)]
    have hc : ((arangeLen (m - buf) ((M + buf) + step) step - 1 : ℕ) : ℚ)
        = ((arangeLen (m - buf) ((M + buf) + step) step : ℕ) : ℚ) - 1 := by
      rw [Nat.cast_sub h1, Nat.cast_one]
    rw [hc]
    exact h2

/-- C5 (corrected): when at least one projected coordinate per axis is
finite, no projected coordinate is infinite, the steps are positive and the
buffer nonnegative, the grid axes are built from the bounding box of the
finite projected coordinates expanded by buffer_m, with arange ceil
semantics: xs = arange(min - buffer, max + buffer + dx, dx), the first
element sits at the buffered minimum and the last element reaches the
buffered maximum, so the grid covers the buffered box; contrary to the
claim, an infinite projected coordinate (an out-of-domain point) makes the
step raise instead, because nanmin/nanmax only ignore NaN, not inf (see
the counterexample). -/
theorem grid_axes_bbox (p : ProjModel) (samples : List Sample) (epsg : Int)
    (dx dy buffer_m nodata : ℚ) (X Y : List Fv)
    (hX : X = (projXY p samples).map Prod.fst)
    (hY : Y = (projXY p samples).map Prod.snd)
    (hv : p.validEpsg epsg = true) (hdx : 0 < dx) (hdy : 0 < dy) (hbuf : 0 ≤ buffer_m)
    (hXno : ∀ x ∈ X, x ≠ Fv.inf ∧ x ≠ Fv.ninf) (hXf : finiteVals X ≠ [])
    (hYno : ∀ y ∈ Y, y ≠ Fv.inf ∧ y ≠ Fv.ninf) (hYf : finiteVals Y ≠ []) :
    (polar_to_grid_2d p samples epsg dx dy buffer_m nodata).isOk = true
    ∧ ∀ g, polar_to_grid_2d p samples epsg dx dy buffer_m nodata = .ok g →
        g.xs = arangeList (qListMin (finiteVals X) - buffer_m) dx
          (arangeLen (qListMin (finiteVals X) - buffer_m)
            (qListMax (finiteVals X) + buffer_m + dx) dx)
        ∧ g.ys = arangeList (qListMin (finiteVals Y) - buffer_m) dy
          (arangeLen (qListMin (finiteVals Y) - buffer_m)
            (qListMax (finiteVals Y) + buffer_m + dy) dy)
        ∧ 1 ≤ g.xs.length
        ∧ g.xs.getD 0 0 = qListMin (finiteVals X) - buffer_m
        ∧ qListMax (finiteVals X) + buffer_m ≤ g.xs.getD (g.xs.length - 1) 0
        ∧ 1 ≤ g.ys.length
        ∧ g.ys.getD 0 0 = qListMin (finiteVals Y) - buffer_m
        ∧ qListMax (finiteVals Y) + buffer_m ≤ g.ys.getD (g.ys.length - 1) 0 := by
  subst hX
  subst hY
  have ha := gridAxes_finite ((projXY p samples).map Prod.fst) ((projXY p samples).map Prod.snd)
    dx dy buffer_m (ne_of_gt hdx) (ne_of_gt hdy) hXno hXf hYno hYf
  have hfX := arange_axis_facts (qListMin (finiteVals ((projXY p samples).map Prod.fst)))
    (qListMax (finiteVals ((projXY p samples).map Prod.fst))) dx buffer_m hdx hbuf
    (qListMin_le_qListMax _ hXf)
  have hfY := arange_axis_facts (qListMin (finiteVals ((projXY p samples).map Prod.snd)))
    (qListMax (finiteVals ((projXY p samples).map Prod.snd))) dy buffer_m hdy hbuf
    (qListMin_le_qListMax _ hYf)
  have hcond : ¬(p.validEpsg epsg = false) := by
    rw [hv]
    simp
  by_cases hce : (candidates p samples).isEmpty
  · have hptg : polar_to_grid_2d p samples epsg dx dy buffer_m nodata
        = .ok (emptyGrid
            (arangeList (qListMin (finiteVals ((projXY p samples).map Prod.fst)) - buffer_m) dx
              (arangeLen (qListMin (finiteVals ((projXY p samples).map Prod.fst)) - buffer_m)
                (qListMax (finiteVals ((projXY p samples).map Prod.fst)) + buffer_m + dx) dx))
            (arangeList (qListMin (finiteVals ((projXY p samples).map Prod.snd)) - buffer_m) dy
              (arangeLen (qListMin (finiteVals ((projXY p samples).map Prod.snd)) - buffer_m)
                (qListMax (finiteVals ((projXY p samples).map Prod.snd)) + buffer_m + dy) dy))
            nodata epsg) := by
      unfold polar_to_grid_2d
      rw [if_neg hcond]
      dsimp only
      rw [ha]
      dsimp only
      rw [if_pos hce]
    refine ⟨by rw [hptg]; rfl, ?_⟩
    intro g hg
    rw [hptg] at hg
    cases hg
    exact ⟨rfl, rfl, hfX.1, hfX.2.1, hfX.2.2, hfY.1, hfY.2.1, hfY.2.2⟩
  · have hptg : polar_to_grid_2d p samples epsg dx dy buffer_m nodata
        = .ok (knnGrid
            (arangeList (qListMin (finiteVals ((projXY p samples).map Prod.fst)) - buffer_m) dx
              (arangeLen (qListMin (finiteVals ((projXY p samples).map Prod.fst)) - buffer_m)
                (qListMax (finiteVals ((projXY p samples).map Prod.fst)) + buffer_m + dx) dx))
            (arangeList (qListMin (finiteVals ((projXY p samples).map Prod.snd)) - buffer_m) dy
              (arangeLen (qListMin (finiteVals ((projXY p samples).map Prod.snd)) - buffer_m)
                (qListMax (finiteVals ((projXY p samples).map Prod.snd)) + buffer_m + dy) dy))
            (candidates p samples) nodata epsg) := by
      unfold polar_to_grid_2d
      rw [if_neg hcond]
      dsimp only
      rw [ha]
      dsimp only
      rw [if_neg hce]
    refine ⟨by rw [hptg]; rfl, ?_⟩
    intro g hg
    rw [hptg] at hg
    cases hg
    exact ⟨rfl, rfl, hfX.1, hfX.2.1, hfX.2.2, hfY.1, hfY.2.1, hfY.2.2⟩

/-- Counterexample for C5: under boundedProj the input c5samples has a
finite projected coordinate (so the claim promises a grid built from the
finite bounding box), but the second sample projects to inf, which
nanmin/nanmax do not ignore; the axis construction then raises a
ValueError instead of building any grid. -/
theorem grid_axes_bbox_cex :
    (((projXY boundedProj c5samples).map Prod.fst).any Fv.isFinite) = true
    ∧ polar_to_grid_2d boundedProj c5samples 32717 500 500 1000 (-9999)
        = .error (.numericError "Maximum allowed size exceeded") :=
  ⟨by decide, by decide⟩

/-- Witness for C5: on c5okSamples under nanProj (finite and NaN projected
coordinates, no infinities) the gridding succeeds and the x axis of the
resulting grid g5ok starts at the buffered minimum and reaches the
buffered maximum. -/
theorem grid_axes_bbox_witness :
    (polar_to_grid_2d nanProj c5okSamples 4326 1 1 1 (-9999)).isOk = true
    ∧ g5ok.xs.getD 0 0
        = qListMin (finiteVals ((projXY nanProj c5okSamples).map Prod.fst)) - 1
    ∧ qListMax (finiteVals ((projXY nanProj c5okSamples).map Prod.fst)) + 1
        ≤ g5ok.xs.getD (g5ok.xs.length - 1) 0 := by
  have h := grid_axes_bbox nanProj c5okSamples 4326 1 1 1 (-9999)
    ((projXY nanProj c5okSamples).map Prod.fst) ((projXY nanProj c5okSamples).map Prod.snd)
    rfl rfl (by decide) (by decide) (by decide) (by decide)
    (by decide) (by decide) (by decide) (by decide)
  have h2 := h.2 g5ok (by decide)
  exact ⟨h.1, h2.2.2.2.1, h2.2.2.2.2.1⟩

/-- Witness for C2: an invalid projection identifier makes the gridding
raise exactly the CRS error naming that identifier. -/
theorem projection_error_iff_witness :
    polar_to_grid_2d noEpsgProj c6samples 999 1 1 1 (-9999) = .error (.crsError 999) :=
  (projection_error_iff noEpsgProj c6samples 999 1 1 1 (-9999) 999).mpr ⟨rfl, rfl⟩
